import Mathlib

/-
Shallow embedding of the products CRUD backend (six near-duplicate Express
variants).  Each route handler is modelled as a pure function from an explicit
state (object-store keys + table rows + auto-increment counter) and a request
to a new state and an HTTP response.  Object-store uploads and database
outcomes are injected as inputs (FileBlob.ok, DbRes) to expose the failure
paths the handlers contain.
-/

namespace ProductsApi

/-- JS `x || null` on an optional string value: both an absent field and an
empty string are coerced to SQL NULL, anything else passes through. -/
def jsOrNull (x : Option String) : Option String :=
  match x with
  | none => none
  | some s => if s = "" then none else some s

/-- JS `Number(x) || 0`: an absent field (Number gives NaN) coerces to 0, a
supplied numeric value (including 0) is kept. -/
def numOr0 (x : Option Int) : Int :=
  match x with
  | none => 0
  | some v => v

/-- SQL `IFNULL(p, col)`: the parameter when non-null, else the current
column value. -/
def ifnullOpt (p : Option String) (cur : Option String) : Option String :=
  match p with
  | none => cur
  | some v => some v

/-- JSON string escaping for one character, as `JSON.stringify` performs on
the quote and backslash characters (control characters, which never occur in
the URLs this backend serializes, are out of scope). -/
def escCharL (c : Char) : List Char :=
  if c = '"' ∨ c = '\\' then ['\\', c] else [c]

/-- Escape a whole character list. -/
def escList : List Char → List Char
  | [] => []
  | c :: cs => escCharL c ++ escList cs

/-- Character-level body of `JSON.stringify` on an array of strings: quoted
escaped items joined by commas. -/
def serializeBody : List String → List Char
  | [] => []
  | [s] => '"' :: (escList s.data ++ ['"'])
  | s :: rest => '"' :: (escList s.data ++ '"' :: ',' :: serializeBody rest)

/-- Embedding of `JSON.stringify(urls)` as performed by the variable-length
variant before the row insert. -/
def serializeStringList (l : List String) : String :=
  String.mk ('[' :: (serializeBody l ++ [']']))

/-- Parse the body of a JSON string literal (after the opening quote) up to
its closing quote, handling the `\"` and `\\` escapes the serializer emits.
Returns the decoded characters and the remaining input. -/
def parseStrBody : List Char → Option (List Char × List Char)
  | [] => none
  | c :: rest =>
    if c = '"' then some ([], rest)
    else if c = '\\' then
      match rest with
      | [] => none
      | d :: rest2 =>
        if d = '"' ∨ d = '\\' then
          match parseStrBody rest2 with
          | none => none
          | some (s, r) => some (d :: s, r)
        else none
    else
      match parseStrBody rest with
      | none => none
      | some (s, r) => some (c :: s, r)

/-- Parse one or more comma-separated JSON string items followed by the
closing bracket; `fuel` bounds the recursion. -/
def parseItemsF : Nat → List Char → Option (List String × List Char)
  | 0, _ => none
  | _ + 1, [] => none
  | n + 1, c :: rest =>
    if c = '"' then
      match parseStrBody rest with
      | none => none
      | some (s, r) =>
        match r with
        | [] => none
        | d :: r2 =>
          if d = ',' then
            match parseItemsF n r2 with
            | none => none
            | some (l, r3) => some (String.mk s :: l, r3)
          else if d = ']' then some ([String.mk s], r2)
          else none
    else none

/-- Embedding of `JSON.parse` applied to a serialized string array, as done
by the variable-length variant on read and on delete (whitespace-free
grammar, exactly what `JSON.stringify` emits; anything else fails). -/
def parseStringList (str : String) : Option (List String) :=
  match str.data with
  | [] => none
  | c :: rest =>
    if c = '[' then
      if rest = [']'] then some []
      else
        match parseItemsF (rest.length + 1) rest with
        | some (l, []) => some l
        | _ => none
    else none

/-- Supabase project URL (configuration value `SUPABASE_URL`). -/
def supabaseUrl : String := "https://sb.example"

/-- Public-URL path segment between the project URL and the object key, as
used by the variable-length variant's delete handler for reverse parsing. -/
def storageSep : String := "/storage/v1/object/public/products/"

/-- Embedding of `supabase.storage.from("products").getPublicUrl(key)`. -/
def publicUrl (key : String) : String :=
  supabaseUrl ++ storageSep ++ key

/-- Boolean test that the first list is a leading segment of the second. -/
def startsWithL : List Char → List Char → Bool
  | [], _ => true
  | _ :: _, [] => false
  | a :: as, b :: bs => a == b && startsWithL as bs

/-- Split a character list at the first occurrence of `sep`, returning the
parts before and after it, or `none` when `sep` does not occur. -/
def splitFirst (sep : List Char) : List Char → Option (List Char × List Char)
  | [] => none
  | c :: rest =>
    if startsWithL sep (c :: rest) then some ([], (c :: rest).drop sep.length)
    else
      match splitFirst sep rest with
      | none => none
      | some (p, q) => some (c :: p, q)

/-- Embedding of JS `url.split(sep)[1]` for the storage separator: the
segment between the first and second occurrence of the separator, or the
tail after the only occurrence; `none` when the separator is absent. -/
def extractKey (u : String) : Option String :=
  match splitFirst storageSep.data u.data with
  | none => none
  | some (_, post) =>
    match splitFirst storageSep.data post with
    | none => some (String.mk post)
    | some (mid, _) => some (String.mk mid)

/-- Reverse-parsed storage path of a URL as the variable-length delete
handler uses it: `url.split(sep)[1]` guarded by JS truthiness (an absent or
empty segment is skipped). -/
def urlToPath (u : String) : Option String :=
  match extractKey u with
  | none => none
  | some p => if p = "" then none else some p

/-- One file of a multipart upload batch: the object key the handler
generates for it and whether the object store accepts the upload. -/
structure FileBlob where
  key : String
  ok : Bool
  deriving DecidableEq

/-- Opaque database driver error. -/
structure DbErr where
  msg : String
  deriving DecidableEq

/-- Outcome of a database call, injected into the handler models. -/
inductive DbRes (α : Type) where
  | ok (val : α)
  | fail (e : DbErr)
  deriving DecidableEq

/-- Fixed-slot product row (`image_main`, `image_thumb1..3` columns), as
persisted by the JSON body variants; nullable columns are `Option`. -/
structure RowFS where
  id : Nat
  name : Option String
  description : Option String
  price : Int
  discount : Int
  image_main : Option String
  image_thumb1 : Option String
  image_thumb2 : Option String
  image_thumb3 : Option String
  deriving DecidableEq

/-- Fixed-slot product row of the multipart variant, whose handlers always
supply the scalar fields as strings. -/
structure RowFS4 where
  id : Nat
  name : String
  description : String
  price : Int
  discount : Int
  image_main : Option String
  image_thumb1 : Option String
  image_thumb2 : Option String
  image_thumb3 : Option String
  deriving DecidableEq

/-- Variable-length variant row: denormalized `image_main` plus the image
list serialized into the `images` TEXT column. -/
structure RowVL where
  id : Nat
  name : String
  description : String
  price : Int
  discount : Int
  image_main : Option String
  images : Option String
  deriving DecidableEq

/-- Single-image variant row (`image_main` only, never null on insert). -/
structure RowSingle where
  id : Nat
  name : String
  description : String
  price : Int
  discount : Int
  image_main : String
  deriving DecidableEq

/-- Body of an HTTP response, mirroring the exact JSON shapes the handlers
produce (note there is no shape that reports dropped uploads). -/
inductive RespBody where
  | okSimple
  | okId (id : Nat)
  | okIdImage (id : Nat) (image : String)
  | okIdImages (id : Nat) (images : List String)
  | rowsFS (rows : List RowFS)
  | errShort (msg : String)
  | errRaw (e : DbErr)
  deriving DecidableEq

/-- HTTP response: status code plus body. -/
structure Resp where
  status : Nat
  body : RespBody
  deriving DecidableEq

/-- Combined server state for the variable-length variant: object-store keys,
table rows and the auto-increment counter. -/
structure StateVL where
  store : List String
  rows : List RowVL
  nextId : Nat
  deriving DecidableEq

/-- Server state for the JSON fixed-slot / reorder variants. -/
structure StateFS where
  store : List String
  rows : List RowFS
  nextId : Nat
  deriving DecidableEq

/-- Server state for the multipart fixed-slot variant. -/
structure StateFS4 where
  store : List String
  rows : List RowFS4
  nextId : Nat
  deriving DecidableEq

/-- Server state for the single-image variant. -/
structure StateSingle where
  store : List String
  rows : List RowSingle
  nextId : Nat
  deriving DecidableEq

/-- Multipart request: scalar fields (supplied as form strings) and the
uploaded file batch. -/
structure ReqMP where
  name : String
  description : String
  price : Int
  discount : Int
  files : List FileBlob
  deriving DecidableEq

/-- JSON-body request of the fixed-slot variants: every field optional. -/
structure ReqFS where
  name : Option String
  description : Option String
  price : Option Int
  discount : Option Int
  image_main : Option String
  image_thumb1 : Option String
  image_thumb2 : Option String
  image_thumb3 : Option String
  deriving DecidableEq

/-- Single-image create request. -/
structure ReqSingle where
  name : String
  description : String
  price : Int
  discount : Int
  file : Option FileBlob
  deriving DecidableEq

/-- Sequential upload loop shared by the variable-length create handler and
the multipart fixed-slot helper `uploadImage`: each successful upload adds
its key to the store and its public URL to the result; the first failing
upload aborts the loop (the helper throws), leaving the earlier uploads in
the store. -/
def uploadLoop (store : List String) : List FileBlob → List String × Option (List String)
  | [] => (store, some [])
  | f :: fs =>
    if f.ok then
      match uploadLoop (store ++ [f.key]) fs with
      | (s2, some us) => (s2, some (publicUrl f.key :: us))
      | (s2, none) => (s2, none)
    else (store, none)

/-- Image set of a variable-length row: the deserialized `images` column
(the delete handler reads it as `JSON.parse(product.images || "[]")`). -/
def vlImageSet (r : RowVL) : List String :=
  (parseStringList (match r.images with
    | none => "[]"
    | some s => if s = "" then "[]" else s)).getD []

/-- Image set of a multipart fixed-slot row: the non-null slots in order. -/
def fsImageSet (r : RowFS4) : List String :=
  [r.image_main, r.image_thumb1, r.image_thumb2, r.image_thumb3].filterMap id

/-- Image set of a JSON fixed-slot row: the non-null slots in order. -/
def fsSlots (r : RowFS) : List String :=
  [r.image_main, r.image_thumb1, r.image_thumb2, r.image_thumb3].filterMap id

/-- Effect emitted by the variable-length delete handler, in program order. -/
inductive Effect3 where
  | delObj (key : String)
  | delRow (id : Nat)
  deriving DecidableEq

/-- POST /products of the variable-length variant: validates name and the
file batch, uploads the files in order (`throw` on the first store error,
with no rollback of earlier uploads), then inserts the row with
`image_main = uploadedUrls[0]` and `images = JSON.stringify(uploadedUrls)`. -/
def create3 (st : StateVL) (req : ReqMP) : StateVL × Resp :=
  if req.name = "" ∨ req.files = [] then
    (st, ⟨400, RespBody.errShort "Nombre e imágenes obligatorios"⟩)
  else
    match uploadLoop st.store req.files with
    | (store2, none) => ({ st with store := store2 }, ⟨500, RespBody.errShort "server error"⟩)
    | (store2, some urls) =>
      let row : RowVL :=
        { id := st.nextId, name := req.name, description := req.description,
          price := req.price, discount := req.discount,
          image_main := urls.head?,
          images := some (serializeStringList urls) }
      ({ store := store2, rows := st.rows ++ [row], nextId := st.nextId + 1 },
       ⟨200, RespBody.okIdImages st.nextId urls⟩)

/-- PUT /products/:id of the variable-length variant: uploads any supplied
files (without checking the store result) and runs a single UPDATE with
`image_main=IFNULL(?,image_main)` and `images=IFNULL(?,images)`, passing
NULL for both when no files were uploaded; scalar columns are always
written; the response is success even when no row matches. -/
def update3 (st : StateVL) (idv : Nat) (req : ReqMP) : StateVL × Resp :=
  let store2 := st.store ++ (req.files.filter (fun f => f.ok)).map (fun f => f.key)
  let urls := req.files.map (fun f => publicUrl f.key)
  let imageMain : Option String :=
    match urls with
    | [] => none
    | u :: _ => some u
  let imagesParam : Option String :=
    match urls with
    | [] => none
    | _ :: _ => some (serializeStringList urls)
  let rows2 := st.rows.map (fun r =>
    if r.id == idv then
      { r with name := req.name, description := req.description,
               price := req.price, discount := req.discount,
               image_main := ifnullOpt imageMain r.image_main,
               images := ifnullOpt imagesParam r.images }
    else r)
  ({ st with store := store2, rows := rows2 }, ⟨200, RespBody.okSimple⟩)

/-- DELETE /products/:id of the variable-length variant: 404 when the row is
absent, else parse the `images` column, remove each reverse-parsed storage
path from the store (skipping URLs whose path is falsy), then delete the
row.  The effect trace records the order of the destructive operations. -/
def delete3 (st : StateVL) (idv : Nat) : StateVL × Resp × List Effect3 :=
  match st.rows.find? (fun r => r.id == idv) with
  | none => (st, ⟨404, RespBody.errShort "Not found"⟩, [])
  | some r =>
    let txt : String :=
      match r.images with
      | none => "[]"
      | some s => if s = "" then "[]" else s
    match parseStringList txt with
    | none => (st, ⟨500, RespBody.errShort "server error"⟩, [])
    | some urls =>
      let keys := urls.filterMap urlToPath
      ({ st with store := keys.foldl (fun s k => s.erase k) st.store,
                 rows := st.rows.filter (fun x => !(x.id == idv)) },
       ⟨200, RespBody.okSimple⟩,
       keys.map Effect3.delObj ++ [Effect3.delRow idv])

/-- PUT /products/:id of the multipart fixed-slot variant: 404 when the row
is absent; otherwise collect the current non-falsy slots, upload the new
files (the helper throws on the first store error, aborting with 500 and no
rollback), and write back slots `images[0..3] || null` — entries beyond the
fourth are silently not persisted and the response does not mention them. -/
def update0 (st : StateFS4) (idv : Nat) (req : ReqMP) : StateFS4 × Resp :=
  match st.rows.find? (fun r => r.id == idv) with
  | none => (st, ⟨404, RespBody.errShort "Not found"⟩)
  | some r0 =>
    let base := (fsImageSet r0).filter (fun s => !(s == ""))
    match uploadLoop st.store req.files with
    | (store2, none) => ({ st with store := store2 }, ⟨500, RespBody.errShort "update error"⟩)
    | (store2, some urls) =>
      let l := base ++ urls
      let rows2 := st.rows.map (fun r =>
        if r.id == idv then
          { id := r.id, name := req.name, description := req.description,
            price := req.price, discount := req.discount,
            image_main := jsOrNull (l.get? 0),
            image_thumb1 := jsOrNull (l.get? 1),
            image_thumb2 := jsOrNull (l.get? 2),
            image_thumb3 := jsOrNull (l.get? 3) }
        else r)
      ({ st with store := store2, rows := rows2 }, ⟨200, RespBody.okSimple⟩)

/-- PUT /products/:id of the JSON fixed-slot variant: no existence check;
a single UPDATE overwrites every column from the request body
(`Number(x) || 0` for numerics, `x || null` for the image slots, the scalar
strings passed through, so an absent field becomes NULL), answering success
even when no row matches; a database failure maps to a short 500 message. -/
def update1 (d : DbRes Unit) (st : StateFS) (idv : Nat) (req : ReqFS) : StateFS × Resp :=
  match d with
  | DbRes.fail _ => (st, ⟨500, RespBody.errShort "update failed"⟩)
  | DbRes.ok _ =>
    let rows2 := st.rows.map (fun r =>
      if r.id == idv then
        { id := r.id, name := req.name, description := req.description,
          price := numOr0 req.price, discount := numOr0 req.discount,
          image_main := jsOrNull req.image_main,
          image_thumb1 := jsOrNull req.image_thumb1,
          image_thumb2 := jsOrNull req.image_thumb2,
          image_thumb3 := jsOrNull req.image_thumb3 }
      else r)
    ({ st with rows := rows2 }, ⟨200, RespBody.okSimple⟩)

/-- DELETE /products/:id of the JSON fixed-slot variant: a single row
DELETE; no store object is touched and there is no existence check; a
database failure maps to a short 500 message. -/
def delete1 (d : DbRes Unit) (st : StateFS) (idv : Nat) : StateFS × Resp :=
  match d with
  | DbRes.fail _ => (st, ⟨500, RespBody.errShort "delete failed"⟩)
  | DbRes.ok _ =>
    ({ st with rows := st.rows.filter (fun r => !(r.id == idv)) },
     ⟨200, RespBody.okSimple⟩)

/-- GET /products of the callback fixed-slot variant: on a database error it
passes the raw driver error object to `res.status(500).json(err)`. -/
def getProductsCb (d : DbRes (List RowFS)) : Resp :=
  match d with
  | DbRes.fail e => ⟨500, RespBody.errRaw e⟩
  | DbRes.ok rows => ⟨200, RespBody.rowsFS rows⟩

/-- GET /products of the promise-pool JSON variant: a database error is
logged and surfaced as a fixed short 500 message. -/
def getProducts1 (d : DbRes (List RowFS)) : Resp :=
  match d with
  | DbRes.fail _ => ⟨500, RespBody.errShort "database unavailable"⟩
  | DbRes.ok rows => ⟨200, RespBody.rowsFS rows⟩

/-- Discount sanitization of the reorder variant:
`Math.max(0, Math.min(100, Number(discount) || 0))`. -/
def safeDiscount (d : Option Int) : Int :=
  max 0 (min 100 (numOr0 d))

/-- POST /products of the reorder variant: inserts a row with the clamped
discount; the other fields follow the usual JS coercions. -/
def create2 (st : StateFS) (req : ReqFS) : StateFS × Resp :=
  let row : RowFS :=
    { id := st.nextId, name := req.name, description := req.description,
      price := numOr0 req.price, discount := safeDiscount req.discount,
      image_main := jsOrNull req.image_main,
      image_thumb1 := jsOrNull req.image_thumb1,
      image_thumb2 := jsOrNull req.image_thumb2,
      image_thumb3 := jsOrNull req.image_thumb3 }
  ({ st with rows := st.rows ++ [row], nextId := st.nextId + 1 },
   ⟨200, RespBody.okId st.nextId⟩)

/-- POST /products of the single-image variant: validates name and file,
uploads the one image (500 on store error), and inserts the row with the
supplied discount passed through `Number(discount)` unclamped. -/
def createSingle (st : StateSingle) (req : ReqSingle) : StateSingle × Resp :=
  if req.name = "" then (st, ⟨400, RespBody.errShort "Nombre e imagen obligatorios"⟩)
  else
    match req.file with
    | none => (st, ⟨400, RespBody.errShort "Nombre e imagen obligatorios"⟩)
    | some f =>
      if f.ok then
        let url := publicUrl f.key
        let row : RowSingle :=
          { id := st.nextId, name := req.name, description := req.description,
            price := req.price, discount := req.discount, image_main := url }
        ({ store := st.store ++ [f.key], rows := st.rows ++ [row], nextId := st.nextId + 1 },
         ⟨200, RespBody.okIdImage st.nextId url⟩)
      else (st, ⟨500, RespBody.errShort "Upload failed"⟩)

/-- Empty initial state for the variable-length variant. -/
def stVL0 : StateVL := ⟨[], [], 1⟩

/-- Create request with three files whose second upload fails at the store. -/
def reqC1 : ReqMP :=
  ⟨"Widget", "", 9, 10,
   [⟨"products/a1.jpg", true⟩, ⟨"products/b2.jpg", false⟩, ⟨"products/c3.jpg", true⟩]⟩

/-- Create request with two successfully uploading files. -/
def reqC2w : ReqMP :=
  ⟨"W", "", 1, 0, [⟨"products/p1.jpg", true⟩, ⟨"products/p2.jpg", true⟩]⟩

/-- Row the variable-length create inserts for `reqC2w`. -/
def rowC2w : RowVL :=
  ⟨1, "W", "", 1, 0, some (publicUrl "products/p1.jpg"),
   some (serializeStringList [publicUrl "products/p1.jpg", publicUrl "products/p2.jpg"])⟩

/-- Multipart fixed-slot state whose row has a hole in the first slot. -/
def stC2w4 : StateFS4 :=
  ⟨[], [⟨1, "Old", "", 1, 0, none, some (publicUrl "products/q1.jpg"), none, none⟩], 2⟩

/-- Update request carrying no files. -/
def reqC2w4 : ReqMP := ⟨"New", "", 2, 0, []⟩

/-- Row produced by the multipart fixed-slot update for `stC2w4`/`reqC2w4`. -/
def rowC2w4 : RowFS4 :=
  ⟨1, "New", "", 2, 0, some (publicUrl "products/q1.jpg"), none, none, none⟩

/-- Multipart fixed-slot state with one product already holding four images. -/
def stC3 : StateFS4 :=
  ⟨["products/e1.jpg", "products/e2.jpg", "products/e3.jpg", "products/e4.jpg"],
   [⟨1, "Old", "", 5, 0,
     some (publicUrl "products/e1.jpg"), some (publicUrl "products/e2.jpg"),
     some (publicUrl "products/e3.jpg"), some (publicUrl "products/e4.jpg")⟩], 2⟩

/-- Update request uploading two more files to a full product. -/
def reqC3 : ReqMP :=
  ⟨"New", "", 5, 0, [⟨"products/n5.jpg", true⟩, ⟨"products/n6.jpg", true⟩]⟩

/-- Row persisted by the multipart fixed-slot update for `stC3`/`reqC3`: the
four existing slot URLs survive and the two new uploads are not referenced. -/
def rowC3after : RowFS4 :=
  ⟨1, "New", "", 5, 0,
   some (publicUrl "products/e1.jpg"), some (publicUrl "products/e2.jpg"),
   some (publicUrl "products/e3.jpg"), some (publicUrl "products/e4.jpg")⟩

/-- Image URL list of the delete scenario with three stored objects. -/
def urlsC4 : List String :=
  [publicUrl "products/a.jpg", publicUrl "products/b.jpg", publicUrl "products/c.jpg"]

/-- Storage keys behind `urlsC4`. -/
def keysC4 : List String :=
  ["products/a.jpg", "products/b.jpg", "products/c.jpg"]

/-- Variable-length row owning the three images of `urlsC4`. -/
def rowC4 : RowVL :=
  ⟨1, "P", "", 5, 0, some (publicUrl "products/a.jpg"),
   some (serializeStringList urlsC4)⟩

/-- Variable-length state for the delete scenario. -/
def stC4 : StateVL := ⟨keysC4, [rowC4], 2⟩

/-- JSON fixed-slot row whose image set references the three stored
objects of `keysC4`. -/
def rowD : RowFS :=
  ⟨1, some "P", some "", 5, 0,
   some (publicUrl "products/a.jpg"), some (publicUrl "products/b.jpg"),
   some (publicUrl "products/c.jpg"), none⟩

/-- JSON fixed-slot state for the delete counterexample. -/
def stD : StateFS := ⟨keysC4, [rowD], 2⟩

/-- Variable-length state holding only a product with id 1. -/
def stC5 : StateVL := ⟨[], [⟨1, "A", "", 1, 0, none, none⟩], 2⟩

/-- Update request without files, aimed at the missing id 5. -/
def reqC5 : ReqMP := ⟨"B", "", 2, 0, []⟩

/-- Multipart fixed-slot state holding only a product with id 1. -/
def stC5w : StateFS4 := ⟨[], [⟨1, "A", "", 1, 0, none, none, none, none⟩], 2⟩

/-- Empty single-image variant state. -/
def stS0 : StateSingle := ⟨[], [], 1⟩

/-- Single-image create request supplying discount 150. -/
def reqC6 : ReqSingle := ⟨"Widget", "", 9, 150, some ⟨"products/w.jpg", true⟩⟩

/-- Stored JSON fixed-slot row with non-zero price and a description. -/
def rowC7 : RowFS := ⟨1, some "Old", some "Desc", 5, 2, none, none, none, none⟩

/-- State owning `rowC7`. -/
def stC7 : StateFS := ⟨[], [rowC7], 2⟩

/-- Update request supplying only a new name. -/
def reqC7 : ReqFS := ⟨some "New", none, none, none, none, none, none, none⟩

/-- Row the JSON fixed-slot update actually persists for `reqC7`: price and
discount reset to 0 and description to NULL although none were supplied. -/
def rowC7up : RowFS := ⟨1, some "New", none, 0, 0, none, none, none, none⟩

/-- Sample database driver error. -/
def dbErrX : DbErr := ⟨"ER_NO_SUCH_TABLE: Table products missing"⟩

/-- Variable-length state with one product owning one image. -/
def stC10 : StateVL :=
  ⟨["products/z.jpg"],
   [⟨1, "A", "desc", 3, 1, some (publicUrl "products/z.jpg"),
     some (serializeStringList [publicUrl "products/z.jpg"])⟩], 2⟩

/-- Update request for `stC10` carrying new scalars and no files. -/
def reqC10 : ReqMP := ⟨"B", "d2", 4, 2, []⟩

/-- Sample image URL for the round-trip witness. -/
def urlW : String := publicUrl "products/w1.jpg"

/-- Rebuilding a string from its character data is the identity. -/
theorem string_mk_data (s : String) : String.mk s.data = s := rfl

/-- String append acts as append on character data. -/
theorem string_data_append (a b : String) : (a ++ b).data = a.data ++ b.data := rfl

/-- Public URLs are never the empty string. -/
theorem publicUrl_ne_empty (k : String) : publicUrl k ≠ "" := by
  intro h
  have h2 := congrArg String.data h
  rw [publicUrl, string_data_append, string_data_append] at h2
  have h3 : supabaseUrl.data ≠ [] := by decide
  rw [List.append_assoc, List.append_eq_nil] at h2
  exact h3 h2.1

/-- Serialized image lists are never the empty string. -/
theorem serializeStringList_ne_empty (l : List String) : serializeStringList l ≠ "" := by
  intro h
  have h2 := congrArg String.data h
  rw [serializeStringList] at h2
  exact List.cons_ne_nil _ _ h2

/-- Parsing a string body recovers exactly the characters the escaper
consumed, leaving the input after the closing quote untouched. -/
theorem parseStrBody_esc (s : List Char) (rest : List Char) :
    parseStrBody (escList s ++ '"' :: rest) = some (s, rest) := by
  induction s with
  | nil =>
    show parseStrBody ('"' :: rest) = some ([], rest)
    rw [parseStrBody.eq_def]; simp
  | cons c cs ih =>
    have hb : ('\\' : Char) ≠ '"' := by decide
    by_cases hc1 : c = '"'
    · subst hc1
      show parseStrBody ('\\' :: '"' :: (escList cs ++ '"' :: rest)) = _
      rw [parseStrBody.eq_def]
      simp [hb, ih]
    · by_cases hc2 : c = '\\'
      · subst hc2
        show parseStrBody ('\\' :: '\\' :: (escList cs ++ '"' :: rest)) = _
        rw [parseStrBody.eq_def]
        simp [hb, ih]
      · have he : escList (c :: cs) = c :: escList cs := by
          have h1 : escList (c :: cs) = escCharL c ++ escList cs := rfl
          rw [h1, escCharL, if_neg (by tauto : ¬(c = '"' ∨ c = '\\'))]
          rfl
        rw [he, List.cons_append, parseStrBody.eq_def]
        simp [hc1, hc2, ih]

/-- The serialized body is at least as long as the list it came from. -/
theorem serializeBody_len (l : List String) : l.length ≤ (serializeBody l).length := by
  induction l with
  | nil => exact Nat.zero_le _
  | cons s t ih =>
    cases t with
    | nil =>
      have h : serializeBody [s] = '"' :: (escList s.data ++ ['"']) := rfl
      rw [h]; simp
    | cons a t2 =>
      have h : serializeBody (s :: a :: t2) =
          '"' :: (escList s.data ++ '"' :: ',' :: serializeBody (a :: t2)) := rfl
      rw [h]
      simp only [List.length_cons, List.length_append] at ih ⊢
      omega

/-- Parsing the serialized body of a non-empty list with enough fuel yields
the list back and stops right after the closing bracket. -/
theorem parseItemsF_serialize :
    ∀ (l : List String) (fuel : Nat) (rest : List Char), l ≠ [] → l.length ≤ fuel →
      parseItemsF fuel (serializeBody l ++ ']' :: rest) = some (l, rest) := by
  intro l
  induction l with
  | nil => intro fuel rest h _; exact absurd rfl h
  | cons s t ih =>
    intro fuel rest _ hlen
    cases fuel with
    | zero => simp at hlen
    | succ n =>
      have hdq : (',' : Char) ≠ ']' := by decide
      cases t with
      | nil =>
        have h : serializeBody [s] ++ ']' :: rest =
            '"' :: (escList s.data ++ '"' :: ']' :: rest) := by
          have h2 : serializeBody [s] = '"' :: (escList s.data ++ ['"']) := rfl
          rw [h2]; simp
        rw [h, parseItemsF.eq_def]
        simp [parseStrBody_esc, string_mk_data]
      | cons a t2 =>
        have hlen2 : (a :: t2).length ≤ n := by simp at hlen ⊢; omega
        have h : serializeBody (s :: a :: t2) ++ ']' :: rest =
            '"' :: (escList s.data ++ '"' :: ',' :: (serializeBody (a :: t2) ++ ']' :: rest)) := by
          have h2 : serializeBody (s :: a :: t2) =
              '"' :: (escList s.data ++ '"' :: ',' :: serializeBody (a :: t2)) := rfl
          rw [h2]; simp
        rw [h, parseItemsF.eq_def]
        simp [parseStrBody_esc, ih n rest (by simp) hlen2, string_mk_data]

/-- Round trip of the variable-length variant's persistence format:
`JSON.parse` of `JSON.stringify` restores the URL list exactly. -/
theorem serialize_parse_id (l : List String) :
    parseStringList (serializeStringList l) = some l := by
  cases l with
  | nil => rfl
  | cons s t =>
    obtain ⟨tail, htail⟩ : ∃ tail, serializeBody (s :: t) = '"' :: tail := by
      cases t <;> exact ⟨_, rfl⟩
    have hne : ¬(serializeBody (s :: t) ++ [']'] = [']']) := by
      rw [htail]; intro h
      have := congrArg List.length h
      simp at this
    have hfuel : (s :: t).length ≤ (serializeBody (s :: t)).length + 1 + 1 := by
      have := serializeBody_len (s :: t)
      simp only [List.length_cons] at this ⊢
      omega
    have hparse := parseItemsF_serialize (s :: t)
      ((serializeBody (s :: t)).length + 1 + 1) [] (by simp) hfuel
    have hdata : (serializeStringList (s :: t)).data =
        '[' :: (serializeBody (s :: t) ++ [']']) := rfl
    rw [parseStringList, hdata]
    simp only [List.append_assoc, List.singleton_append] at hparse
    simp [hne, hparse]

/-- When every upload in the batch succeeds, the loop appends all keys to
the store and returns the public URLs in file order. -/
theorem uploadLoop_all_ok (fs : List FileBlob) :
    ∀ s, (∀ f ∈ fs, f.ok = true) →
      uploadLoop s fs = (s ++ fs.map (fun f => f.key), some (fs.map (fun f => publicUrl f.key))) := by
  induction fs with
  | nil => intro s _; simp [uploadLoop]
  | cons f t ih =>
    intro s h
    have hf : f.ok = true := h f (by simp)
    have ht : ∀ g ∈ t, g.ok = true := fun g hg => h g (by simp [hg])
    rw [uploadLoop, if_pos hf, ih (s ++ [f.key]) ht]
    simp

/-- A successful upload loop returns exactly the public URLs of the batch. -/
theorem uploadLoop_some_eq (fs : List FileBlob) :
    ∀ s s2 us, uploadLoop s fs = (s2, some us) → us = fs.map (fun f => publicUrl f.key) := by
  induction fs with
  | nil =>
    intro s s2 us h
    rw [uploadLoop] at h
    simp at h
    simp [h.2]
  | cons f t ih =>
    intro s s2 us h
    by_cases hf : f.ok
    · rw [uploadLoop, if_pos hf] at h
      rcases hu : uploadLoop (s ++ [f.key]) t with ⟨s3, ou⟩
      cases ou with
      | some us3 =>
        rw [hu] at h
        simp at h
        rw [List.map_cons, ← ih (s ++ [f.key]) s3 us3 hu]
        exact h.2.symm
      | none =>
        rw [hu] at h
        simp at h
    · rw [uploadLoop, if_neg hf] at h
      simp at h

/-- Appending a single element makes it the last element. -/
theorem getLast_app_single {α : Type} (l : List α) (a : α) :
    (l ++ [a]).getLast? = some a := by
  induction l with
  | nil => rfl
  | cons x t ih =>
    cases h : t ++ [a] with
    | nil => exact absurd h (by simp)
    | cons y ys =>
      rw [List.cons_append, h, List.getLast?_cons_cons, ← h, ih]

/-- Erasing a duplicate-free batch of present keys shrinks the store by
exactly the batch size. -/
theorem foldl_erase_len :
    ∀ (keys store : List String), keys.Nodup → (∀ k ∈ keys, k ∈ store) →
      (keys.foldl (fun s k => s.erase k) store).length + keys.length = store.length := by
  intro keys
  induction keys with
  | nil => intro store _ _; simp
  | cons k ks ih =>
    intro store hnd hmem
    have hk : k ∈ store := hmem k (by simp)
    have hnd2 := List.nodup_cons.mp hnd
    have hmem2 : ∀ x ∈ ks, x ∈ store.erase k := by
      intro x hx
      have hxk : x ≠ k := fun he => hnd2.1 (he ▸ hx)
      exact (List.mem_erase_of_ne hxk).mpr (hmem x (by simp [hx]))
    have hlen := List.length_erase_of_mem hk
    have hih := ih (store.erase k) hnd2.2 hmem2
    have hpos := List.length_pos_of_mem hk
    simp only [List.foldl_cons]
    simp only [List.length_cons]
    omega

/-- Splitting a list by a Boolean predicate partitions its length. -/
theorem filter_not_length {α : Type} (p : α → Bool) :
    ∀ (l : List α), (l.filter (fun x => !(p x))).length + (l.filter p).length = l.length := by
  intro l
  induction l with
  | nil => simp
  | cons x t ih =>
    by_cases h : p x = true
    · simp [List.filter_cons, h]
      omega
    · simp only [Bool.not_eq_true] at h
      simp [List.filter_cons, h]
      omega

/-- For a list of non-empty strings, the first `x || null` slot equals the
head of the non-null slots. -/
theorem slots_head (l : List String) (h : ∀ s ∈ l, s ≠ "") :
    jsOrNull (l.get? 0) =
      ([jsOrNull (l.get? 0), jsOrNull (l.get? 1), jsOrNull (l.get? 2),
        jsOrNull (l.get? 3)].filterMap id).head? := by
  cases l with
  | nil => rfl
  | cons a t =>
    have ha : a ≠ "" := h a (by simp)
    simp [jsOrNull, ha]

/-- Mapping a guarded rewrite over rows without a match is the identity. -/
theorem map_if_no_match {α : Type} (l : List α) (p : α → Bool) (f : α → α)
    (h : ∀ x ∈ l, p x = false) :
    l.map (fun x => if p x then f x else x) = l := by
  induction l with
  | nil => rfl
  | cons x t ih =>
    have hx := h x (by simp)
    simp [hx, ih (fun y hy => h y (by simp [hy]))]

/-- C1: evaluation of the variable-length create at a batch whose second
upload fails.  The claim requires the already-succeeded upload 0 to be
deleted before the error returns (store count unchanged); the code returns
the 500 error with the first object still in the store (count 0 before,
1 after) and no row inserted. -/
theorem c1_create3_failed_upload_leaks_objects :
    (create3 stVL0 reqC1).1.store = ["products/a1.jpg"] ∧
    (create3 stVL0 reqC1).1.store.length = 1 ∧
    stVL0.store.length = 0 ∧
    (create3 stVL0 reqC1).2 = ⟨500, RespBody.errShort "server error"⟩ ∧
    (create3 stVL0 reqC1).1.rows = [] := by decide

/-- C3: evaluation of the multipart fixed-slot update on a product already
holding four images, uploading two more.  The persisted list stays within
capacity, but the two excess uploads are written to the store, dropped from
the persisted slots and never reported: the response is the plain success
body, which has no shape for reporting dropped files. -/
theorem c3_update0_silently_drops_excess :
    (update0 stC3 1 reqC3).1.store.length = 6 ∧
    stC3.store.length = 4 ∧
    (update0 stC3 1 reqC3).1.rows = [rowC3after] ∧
    (fsImageSet rowC3after).length = 4 ∧
    ¬(publicUrl "products/n5.jpg" ∈ fsImageSet rowC3after) ∧
    ¬(publicUrl "products/n6.jpg" ∈ fsImageSet rowC3after) ∧
    (update0 stC3 1 reqC3).2 = ⟨200, RespBody.okSimple⟩ := by decide

/-- C4 (counterexample): deleting a JSON fixed-slot product whose image set
holds three URLs referencing three stored objects removes the row but no
store object, so the store count does not decrease by the image-set size as
the claim requires. -/
theorem c4_json_fixed_slot_delete_leaves_store :
    (delete1 (DbRes.ok ()) stD 1).1.rows.length = 0 ∧
    stD.rows.length = 1 ∧
    (fsSlots rowD).length = 3 ∧
    (delete1 (DbRes.ok ()) stD 1).1.store = stD.store ∧
    stD.store.length = 3 ∧
    (delete1 (DbRes.ok ()) stD 1).2 = ⟨200, RespBody.okSimple⟩ := by decide

/-- C5 (counterexample): the variable-length update aimed at a product id
that does not exist answers 200 success, not the 404 the claim requires
(no row is modified). -/
theorem c5_vl_update_missing_id_returns_200 :
    (update3 stC5 5 reqC5).2 = ⟨200, RespBody.okSimple⟩ ∧
    ¬((update3 stC5 5 reqC5).2.status = 404) ∧
    (update3 stC5 5 reqC5).1.rows = stC5.rows := by decide

/-- C6 (counterexample): the single-image create persists discount 150
verbatim, not the clamped 100 the claim requires. -/
theorem c6_single_variant_persists_discount_150 :
    ((createSingle stS0 reqC6).1.rows.map (fun r => r.discount)) = [150] ∧
    reqC6.discount = 150 ∧
    (createSingle stS0 reqC6).2 = ⟨200, RespBody.okIdImage 1 (publicUrl "products/w.jpg")⟩ := by
  decide

/-- C7 (counterexample): a JSON fixed-slot update supplying only a new name
overwrites the unsupplied fields anyway — price falls from 5 to 0 and the
description becomes NULL — contradicting the claim that a field is
overwritten only when supplied. -/
theorem c7_json_update_clobbers_unsupplied_fields :
    (update1 (DbRes.ok ()) stC7 1 reqC7).1.rows = [rowC7up] ∧
    reqC7.price = none ∧ rowC7.price = 5 ∧ rowC7up.price = 0 ∧
    reqC7.description = none ∧ rowC7.description = some "Desc" ∧
    rowC7up.description = none := by decide

/-- C8 (counterexample): on a database failure the callback fixed-slot GET
handler returns the raw driver error object as the 500 response body,
contradicting the claim that internal error objects are never included. -/
theorem c8_callback_get_returns_raw_error :
    getProductsCb (DbRes.fail dbErrX) = ⟨500, RespBody.errRaw dbErrX⟩ := by decide

/-- C8 (amended): the promise-pool JSON variant surfaces database failures
as a 500 with a fixed short message, independent of the error, for both the
delete and the list handlers. -/
theorem c8_promise_pool_generic_500 :
    ∀ (e : DbErr) (st : StateFS) (idv : Nat),
      delete1 (DbRes.fail e) st idv = (st, ⟨500, RespBody.errShort "delete failed"⟩) ∧
      getProducts1 (DbRes.fail e) = ⟨500, RespBody.errShort "database unavailable"⟩ := by
  intro e st idv
  exact ⟨rfl, rfl⟩

/-- C9: serializing a list of image URLs (as the variable-length create
does before the row insert) and parsing it back (as the read and delete
paths do) restores the list exactly, element for element and in order;
image URLs contain no control characters, the one class of characters the
backend's serializer never has to escape. -/
theorem c9_json_roundtrip (l : List String)
    (_hurl : ∀ s ∈ l, ∀ c ∈ s.data, 32 ≤ c.toNat) :
    parseStringList (serializeStringList l) = some l :=
  serialize_parse_id l

/-- Witness for C9 at a concrete public URL. -/
theorem c9_roundtrip_witness :
    parseStringList (serializeStringList [urlW]) = some [urlW] :=
  c9_json_roundtrip [urlW] (by decide)

/-- C10: a variable-length update with no uploaded files leaves every row's
image_main and images columns unchanged (the IFNULL parameters are NULL)
while the scalar columns of the matching row are overwritten with the
request values; the store is untouched and the response is success. -/
theorem c10_vl_update_no_files_preserves_images :
    ∀ (st : StateVL) (idv : Nat) (req : ReqMP), req.files = [] →
      (update3 st idv req).1.rows = st.rows.map (fun r =>
        if r.id == idv then
          { r with name := req.name, description := req.description,
                   price := req.price, discount := req.discount }
        else r) ∧
      (update3 st idv req).1.store = st.store ∧
      (update3 st idv req).2 = ⟨200, RespBody.okSimple⟩ := by
  intro st idv req hf
  rw [update3]
  simp [hf, ifnullOpt]

/-- Witness for C10 at a concrete one-product state. -/
theorem c10_no_files_witness :
    (update3 stC10 1 reqC10).1.rows = stC10.rows.map (fun r =>
        if r.id == 1 then
          { r with name := reqC10.name, description := reqC10.description,
                   price := reqC10.price, discount := reqC10.discount }
        else r) ∧
    (update3 stC10 1 reqC10).1.store = stC10.store ∧
    (update3 stC10 1 reqC10).2 = ⟨200, RespBody.okSimple⟩ :=
  c10_vl_update_no_files_preserves_images stC10 1 reqC10 rfl

/-- C5 (amended): only the multipart fixed-slot variant answers 404 without
touching anything when the id is absent; the variable-length and JSON
fixed-slot variants answer 200 success while modifying no row. -/
theorem c5_missing_id_behavior :
    (∀ (st : StateFS4) (idv : Nat) (req : ReqMP),
      st.rows.find? (fun r => r.id == idv) = none →
      update0 st idv req = (st, ⟨404, RespBody.errShort "Not found"⟩)) ∧
    (∀ (st : StateVL) (idv : Nat) (req : ReqMP),
      (∀ r ∈ st.rows, (r.id == idv) = false) →
      (update3 st idv req).1.rows = st.rows ∧ (update3 st idv req).2.status = 200) ∧
    (∀ (st : StateFS) (idv : Nat) (req : ReqFS),
      (∀ r ∈ st.rows, (r.id == idv) = false) →
      (update1 (DbRes.ok ()) st idv req).1.rows = st.rows ∧
      (update1 (DbRes.ok ()) st idv req).2 = ⟨200, RespBody.okSimple⟩) := by
  refine ⟨?_, ?_, ?_⟩
  · intro st idv req h
    rw [update0.eq_def, h]
  · intro st idv req h
    constructor
    · rw [update3]
      simp only
      exact map_if_no_match st.rows (fun r => r.id == idv) _ h
    · rfl
  · intro st idv req h
    constructor
    · rw [update1]
      simp only
      exact map_if_no_match st.rows (fun r => r.id == idv) _ h
    · rfl

/-- Witness for C5 at concrete states without the requested id, one per
variant conjunct. -/
theorem c5_missing_id_witness :
    update0 stC5w 7 reqC5 = (stC5w, ⟨404, RespBody.errShort "Not found"⟩) ∧
    ((update3 stC5 9 reqC5).1.rows = stC5.rows ∧ (update3 stC5 9 reqC5).2.status = 200) ∧
    ((update1 (DbRes.ok ()) stC7 8 reqC7).1.rows = stC7.rows ∧
     (update1 (DbRes.ok ()) stC7 8 reqC7).2 = ⟨200, RespBody.okSimple⟩) :=
  ⟨c5_missing_id_behavior.1 stC5w 7 reqC5 (by decide),
   c5_missing_id_behavior.2.1 stC5 9 reqC5 (by decide),
   c5_missing_id_behavior.2.2 stC7 8 reqC7 (by decide)⟩

/-- C6 (amended): only the reorder variant clamps: its create always
persists `safeDiscount`, which lies in [0,100] and maps a supplied 150 to
100; the single-image variant persists the discount unclamped. -/
theorem c6_reorder_variant_clamps_discount :
    (∀ (st : StateFS) (req : ReqFS),
      ((create2 st req).1.rows.getLast?).map (fun r => r.discount)
        = some (safeDiscount req.discount) ∧
      0 ≤ safeDiscount req.discount ∧ safeDiscount req.discount ≤ 100) ∧
    safeDiscount (some 150) = 100 := by
  constructor
  · intro st req
    refine ⟨?_, le_max_left 0 _, ?_⟩
    · rw [create2]
      simp [getLast_app_single]
    · exact max_le (by norm_num) (min_le_left _ _)
  · decide

/-- C7 (amended): the JSON fixed-slot update overwrites every scalar
column unconditionally: the persisted values are functions of the request
alone (absent numerics persist as 0, absent strings as NULL), and supplied
zero or empty values are persisted as supplied. -/
theorem c7_json_update_overwrites_all_scalars :
    ∀ (st : StateFS) (idv : Nat) (req : ReqFS) (r2 : RowFS),
      r2 ∈ (update1 (DbRes.ok ()) st idv req).1.rows → r2.id = idv →
      r2.name = req.name ∧ r2.description = req.description ∧
      r2.price = numOr0 req.price ∧ r2.discount = numOr0 req.discount ∧
      (req.price = none → r2.price = 0) ∧ (req.price = some 0 → r2.price = 0) ∧
      (req.description = some "" → r2.description = some "") := by
  intro st idv req r2 hmem hid
  rw [update1] at hmem
  simp only [List.mem_map] at hmem
  obtain ⟨r0, hr0, heq⟩ := hmem
  by_cases h : (r0.id == idv) = true
  · rw [if_pos h] at heq
    subst heq
    refine ⟨rfl, rfl, rfl, rfl, ?_, ?_, ?_⟩
    · intro hp; simp [numOr0, hp]
    · intro hp; simp [numOr0, hp]
    · intro hd; simp [hd]
  · rw [if_neg h] at heq
    exfalso
    apply h
    rw [heq, hid]
    simp

/-- Witness for C7: the concrete update of `reqC7` yields `rowC7up`, whose
scalar columns are exactly the request-determined values. -/
theorem c7_overwrite_witness :
    rowC7up.name = reqC7.name ∧ rowC7up.description = reqC7.description ∧
    rowC7up.price = numOr0 reqC7.price ∧ rowC7up.discount = numOr0 reqC7.discount ∧
    (reqC7.price = none → rowC7up.price = 0) ∧ (reqC7.price = some 0 → rowC7up.price = 0) ∧
    (reqC7.description = some "" → rowC7up.description = some "") :=
  c7_json_update_overwrites_all_scalars stC7 1 reqC7 rowC7up (by decide) (by decide)

/-- C2: after a successful variable-length create the inserted row's
image_main equals the first entry of its (non-empty) deserialized image
set, and after a successful multipart fixed-slot update the updated row's
image_main equals the first non-null slot of its image set (null when the
set is empty). -/
theorem c2_image_main_first_of_set :
    (∀ (st : StateVL) (req : ReqMP),
      req.name ≠ "" → req.files ≠ [] → (∀ f ∈ req.files, f.ok = true) →
      ∀ r, (create3 st req).1.rows.getLast? = some r →
        r.image_main = (vlImageSet r).head? ∧ vlImageSet r ≠ []) ∧
    (∀ (st : StateFS4) (idv : Nat) (req : ReqMP) (r2 : RowFS4),
      (update0 st idv req).2.status = 200 →
      r2 ∈ (update0 st idv req).1.rows → r2.id = idv →
      r2.image_main = (fsImageSet r2).head?) := by
  constructor
  · intro st req hn hf hok r hlast
    have hup := uploadLoop_all_ok req.files st.store hok
    have hc : create3 st req =
        ({ store := st.store ++ req.files.map (fun f => f.key),
           rows := st.rows ++ [⟨st.nextId, req.name, req.description, req.price, req.discount,
             (req.files.map (fun f => publicUrl f.key)).head?,
             some (serializeStringList (req.files.map (fun f => publicUrl f.key)))⟩],
           nextId := st.nextId + 1 },
         ⟨200, RespBody.okIdImages st.nextId (req.files.map (fun f => publicUrl f.key))⟩) := by
      rw [create3, if_neg (by tauto), hup]
    rw [hc] at hlast
    simp only [getLast_app_single, Option.some.injEq] at hlast
    subst hlast
    have hset : vlImageSet (⟨st.nextId, req.name, req.description, req.price, req.discount,
        (req.files.map (fun f => publicUrl f.key)).head?,
        some (serializeStringList (req.files.map (fun f => publicUrl f.key)))⟩ : RowVL)
        = req.files.map (fun f => publicUrl f.key) := by
      rw [vlImageSet]
      simp [serializeStringList_ne_empty, serialize_parse_id]
    rw [hset]
    exact ⟨rfl, by simpa using hf⟩
  · intro st idv req r2 hstatus hmem hid
    rcases hfind : st.rows.find? (fun r => r.id == idv) with _ | r0
    · rw [update0.eq_def, hfind] at hstatus
      simp at hstatus
    · rcases hup : uploadLoop st.store req.files with ⟨store2, ou⟩
      cases ou with
      | none =>
        rw [update0.eq_def, hfind, hup] at hstatus
        simp at hstatus
      | some urls =>
        rw [update0.eq_def, hfind, hup] at hmem
        simp only [List.mem_map] at hmem
        obtain ⟨r0b, hr0b, heq⟩ := hmem
        by_cases hb : (r0b.id == idv) = true
        · rw [if_pos hb] at heq
          have hl : ∀ s ∈ ((fsImageSet r0).filter (fun s => !(s == "")) ++ urls), s ≠ "" := by
            intro s hs
            rcases List.mem_append.mp hs with hs | hs
            · have hsp := List.mem_filter.mp hs
              simpa using hsp.2
            · have husome := uploadLoop_some_eq req.files st.store store2 urls hup
              rw [husome] at hs
              obtain ⟨f, _, hfeq⟩ := List.mem_map.mp hs
              rw [← hfeq]
              exact publicUrl_ne_empty f.key
          have hsl := slots_head _ hl
          rw [← heq]
          exact hsl
        · rw [if_neg hb] at heq
          exfalso
          apply hb
          rw [heq, hid]
          simp

/-- Witness for C2: the create and update conjuncts instantiated at
concrete requests. -/
theorem c2_first_of_set_witness :
    (rowC2w.image_main = (vlImageSet rowC2w).head? ∧ vlImageSet rowC2w ≠ []) ∧
    rowC2w4.image_main = (fsImageSet rowC2w4).head? :=
  ⟨c2_image_main_first_of_set.1 stVL0 reqC2w (by decide) (by decide) (by decide)
     rowC2w (by decide),
   c2_image_main_first_of_set.2 stC2w4 1 reqC2w4 rowC2w4 (by decide) (by decide) rfl⟩

/-- C4 (amended): in the variable-length variant, deleting an existing
product whose serialized image set reverse-parses to distinct storage keys
all present in the store removes the row (row count minus one) and every
referenced object (store count minus the image-set size), and the effect
trace performs every object deletion before the row deletion. -/
theorem c4_vl_delete_objects_then_row :
    ∀ (st : StateVL) (idv : Nat) (r : RowVL) (urls keys : List String),
      st.rows.find? (fun x => x.id == idv) = some r →
      r.images = some (serializeStringList urls) →
      urls.filterMap urlToPath = keys →
      keys.length = urls.length →
      keys.Nodup →
      (∀ k ∈ keys, k ∈ st.store) →
      (st.rows.filter (fun x => x.id == idv)).length = 1 →
      (delete3 st idv).1.rows.length + 1 = st.rows.length ∧
      (delete3 st idv).1.store.length + urls.length = st.store.length ∧
      (delete3 st idv).2.1 = ⟨200, RespBody.okSimple⟩ ∧
      (delete3 st idv).2.2 = keys.map Effect3.delObj ++ [Effect3.delRow idv] := by
  intro st idv r urls keys hfind himg hkeys hlen hnd hmem hcount
  have hd : delete3 st idv =
      ({ store := (urls.filterMap urlToPath).foldl (fun s k => s.erase k) st.store,
         rows := st.rows.filter (fun x => !(x.id == idv)), nextId := st.nextId },
       ⟨200, RespBody.okSimple⟩,
       (urls.filterMap urlToPath).map Effect3.delObj ++ [Effect3.delRow idv]) := by
    rw [delete3.eq_def, hfind]
    simp [himg, serializeStringList_ne_empty urls, serialize_parse_id]
  rw [hd, hkeys]
  dsimp only
  refine ⟨?_, ?_, rfl, rfl⟩
  · have hp := filter_not_length (fun x : RowVL => x.id == idv) st.rows
    simp only [hcount] at hp
    omega
  · have hf := foldl_erase_len keys st.store hnd hmem
    omega

set_option maxRecDepth 8192 in
/-- Witness for C4 at a concrete three-image product. -/
theorem c4_delete_witness :
    (delete3 stC4 1).1.rows.length + 1 = stC4.rows.length ∧
    (delete3 stC4 1).1.store.length + urlsC4.length = stC4.store.length ∧
    (delete3 stC4 1).2.1 = ⟨200, RespBody.okSimple⟩ ∧
    (delete3 stC4 1).2.2 = keysC4.map Effect3.delObj ++ [Effect3.delRow 1] :=
  c4_vl_delete_objects_then_row stC4 1 rowC4 urlsC4 keysC4 (by decide) rfl (by decide)
    (by decide) (by decide) (by decide) (by decide)

end ProductsApi
